import Mathlib

/-!
Verification of the sengy plan-execute-replan agent (src/sengy).

Shallow embedding of:
* the `shared_data` mapping with Python dict-union merge (`operator.or_`,
  declared in `PlanExecute.shared_data`, src/sengy/agent/agent.py),
* the `PlanExecute` run state and the node functions `plan_step`,
  `execute_step`, `replan_step`, `should_end` of `Agent`
  (src/sengy/agent/agent.py),
* the graph wiring built by `Agent.build_graph`,
* the map-reduce aggregation tools `analyze_content_tool`
  (src/sengy/node/analysis.py) and `summarise_content_tool`
  (src/sengy/node/summarise.py),
* the router schema `RouteDecision` and routing functions of `SengyGraph`
  (src/sengy/agent/sengy_graph.py),
* the shared-data patches of the data-fetching tools `jql_query`
  (src/sengy/node/jira.py) and `get_github_commits` (src/sengy/node/github.py).
-/

namespace Sengy

/-- Values stored in the `shared_data` mapping.  The code stores either plain
strings or lists (of parsed tickets, commits, documents, ...); we model both,
with list elements again arbitrary values. -/
inductive Value where
  | str (s : String)
  | list (items : List Value)

/-- Python truthiness of a value: the empty string and the empty list are
falsy, everything else here is truthy. -/
def Value.truthy : Value → Bool
  | .str s => s ≠ ""
  | .list l => !l.isEmpty

/-- Python truthiness of an optional value: `None` is falsy. -/
def pyTruthy : Option Value → Bool
  | none => false
  | some v => v.truthy

/-- A Python dict, modelled as an insertion-ordered association list.
Real dicts have no duplicate keys; lookups take the first matching entry so a
well-formedness invariant is not needed for the properties we prove. -/
abbrev PyDict (V : Type) : Type := List (String × V)

namespace PyDict

/-- `d[k]` as a total function: `some v` when key `k` is present. -/
def lookup {V : Type} : PyDict V → String → Option V
  | [], _ => none
  | (k', v) :: rest, k => if k' = k then some v else lookup rest k

/-- The key list of a dict. -/
def keys {V : Type} (d : PyDict V) : List String := d.map Prod.fst

/-- Python dict union `d1 | d2` (`operator.or_`, the reducer declared for
`shared_data` in `PlanExecute`): keys of `d1` keep their position but take the
value from `d2` when `d2` also binds them, then the keys only in `d2` follow
in their `d2` order. -/
def union {V : Type} (d1 d2 : PyDict V) : PyDict V :=
  (d1.map (fun kv =>
    match lookup d2 kv.1 with
    | some v => (kv.1, v)
    | none => kv))
  ++ d2.filter (fun kv => (lookup d1 kv.1).isNone)

/-- Python dict equality `==`: insertion order is ignored, only the underlying
key-value mapping matters. -/
def equiv {V : Type} (d1 d2 : PyDict V) : Prop :=
  ∀ k, d1.lookup k = d2.lookup k

/-- Decidable key-set disjointness of two dicts. -/
def disjointKeys {V : Type} (d1 d2 : PyDict V) : Bool :=
  d1.keys.all (fun k => d2.keys.all (fun k' => k' ≠ k))

theorem lookup_append {V : Type} (d1 d2 : PyDict V) (k : String) :
    lookup (d1 ++ d2) k = (lookup d1 k).or (lookup d2 k) := by
  induction d1 with
  | nil => simp [lookup, Option.or]
  | cons kv rest ih =>
    obtain ⟨k', v⟩ := kv
    by_cases h : k' = k
    · simp [lookup, h, Option.or]
    · simpa [lookup, h] using ih

theorem lookup_map_override {V : Type} (d1 d2 : PyDict V) (k : String) :
    lookup (d1.map (fun kv =>
      match lookup d2 kv.1 with
      | some v => (kv.1, v)
      | none => kv)) k
      = (lookup d1 k).map (fun v => (lookup d2 k).getD v) := by
  induction d1 with
  | nil => simp [lookup]
  | cons kv rest ih =>
    obtain ⟨k', v⟩ := kv
    by_cases h : k' = k
    · subst h
      cases h2 : lookup d2 k' <;> simp [lookup, h2]
    · cases h2 : lookup d2 k' <;> simp [lookup, h, h2, ih]

theorem lookup_filter_not_in {V : Type} (d1 d2 : PyDict V) (k : String) :
    lookup (d2.filter (fun kv => (lookup d1 kv.1).isNone)) k
      = if (lookup d1 k).isNone then lookup d2 k else none := by
  induction d2 with
  | nil => simp [lookup]
  | cons kv rest ih =>
    obtain ⟨k', v⟩ := kv
    by_cases h : k' = k
    · subst h
      cases h1 : lookup d1 k' <;> simp [List.filter, lookup, h1, ih]
    · cases h1 : lookup d1 k' <;>
        cases h1' : (lookup d1 k').isNone <;>
          simp_all [List.filter, lookup, h, ih]

/-- The fundamental lookup law of Python dict union: the right dict wins. -/
theorem lookup_union {V : Type} (d1 d2 : PyDict V) (k : String) :
    lookup (union d1 d2) k = (lookup d2 k).or (lookup d1 k) := by
  rw [union, lookup_append, lookup_map_override, lookup_filter_not_in]
  cases h1 : lookup d1 k <;> cases h2 : lookup d2 k <;>
    simp [h1, h2, Option.or]

theorem lookup_eq_none_of_not_mem_keys {V : Type} {d : PyDict V} {k : String}
    (h : k ∉ d.keys) : lookup d k = none := by
  induction d with
  | nil => rfl
  | cons kv rest ih =>
    obtain ⟨k', v⟩ := kv
    simp only [keys, List.map_cons, List.mem_cons, not_or] at h
    rw [lookup, if_neg (fun hk => h.1 hk.symm)]
    exact ih (by simpa [keys] using h.2)

theorem mem_keys_of_lookup_eq_some {V : Type} {d : PyDict V} {k : String}
    {v : V} (h : lookup d k = some v) : k ∈ d.keys := by
  induction d with
  | nil => simp [lookup] at h
  | cons kv rest ih =>
    obtain ⟨k', v'⟩ := kv
    by_cases hk : k' = k
    · show k ∈ k' :: keys rest
      exact hk ▸ List.mem_cons_self _ _
    · rw [lookup, if_neg hk] at h
      show k ∈ k' :: keys rest
      exact List.mem_cons_of_mem _ (ih h)

/-- Key-set disjointness makes the lookups of the two dicts never both
succeed. -/
theorem lookup_none_of_disjointKeys {V : Type} {d1 d2 : PyDict V}
    (h : disjointKeys d1 d2 = true) (k : String) :
    lookup d1 k = none ∨ lookup d2 k = none := by
  cases h1 : lookup d1 k with
  | none => exact Or.inl rfl
  | some v =>
    right
    have hk1 : k ∈ d1.keys := mem_keys_of_lookup_eq_some h1
    simp only [disjointKeys, List.all_eq_true] at h
    apply lookup_eq_none_of_not_mem_keys
    intro hk2
    have := h k hk1 k hk2
    simp at this

end PyDict

/-! ## The `PlanExecute` run state and its update channels

`PlanExecute` (src/sengy/agent/agent.py) is a LangGraph `TypedDict`; node
functions return partial updates.  A key may be absent from a state or update
(Python `"response" in state` is a real test in `should_end`), and the
`response` key, when present, may hold Python `None` (set that way by
`plan_step`), so `response` is modelled as `Option (Option String)`:
the outer level is key presence, the inner level is `None` vs a string. -/

/-- The run state of one Engine invocation (`PlanExecute` TypedDict). -/
structure PlanExecute where
  input : String
  plan : List String
  pastSteps : List (String × String)
  response : Option (Option String)
  sharedData : PyDict Value

/-- A partial state update as returned by a node function: `none` means the
key is absent from the returned dict. -/
structure StateUpdate where
  plan : Option (List String)
  pastSteps : Option (List (String × String))
  response : Option (Option String)
  sharedData : Option (PyDict Value)

/-- LangGraph channel application for the reducers declared on `PlanExecute`:
`plan` and `response` are plain replacement channels, `past_steps` uses the
`operator.add` reducer (list append) and `shared_data` uses the `operator.or_`
reducer (Python dict union, update side wins per key). -/
def applyUpdate (st : PlanExecute) (u : StateUpdate) : PlanExecute where
  input := st.input
  plan :=
    match u.plan with
    | some p => p
    | none => st.plan
  pastSteps :=
    match u.pastSteps with
    | some ps => st.pastSteps ++ ps
    | none => st.pastSteps
  response :=
    match u.response with
    | some r => some r
    | none => st.response
  sharedData :=
    match u.sharedData with
    | some p => PyDict.union st.sharedData p
    | none => st.sharedData

/-- The structured output the replanner oracle returns (`Act.action` in
src/sengy/agent/agent.py): either a final `Response` or a new `Plan`. -/
inductive Act where
  | response (r : String)
  | plan (steps : List String)

/-- What the react sub-agent invocation inside `execute_step` produces:
the content of its last message and its final `shared_data` mapping. -/
structure ExecOutcome where
  result : String
  sharedData : PyDict Value

/-- `Agent.plan_step`: the planner oracle returns `steps`; the node returns
the update dict with the new plan under key `plan` and Python `None` under
key `response`. -/
def plan_step (steps : List String) : StateUpdate :=
  ⟨some steps, none, some none, none⟩

/-- `Agent.replan_step`: on a `Response` action it returns only the
`response` key; on a `Plan` action it returns only the `plan` key. -/
def replan_step (a : Act) : StateUpdate :=
  match a with
  | .response r => ⟨none, none, some (some r), none⟩
  | .plan steps => ⟨some steps, none, none, none⟩

/-- `Agent.execute_step`, totalised: the source indexes `plan[0]`, which
raises on an empty plan — modelled as `none`.  Otherwise the node returns
only the `past_steps` key (one `(task, result)` pair) and the `shared_data`
key (the sub-agent's resulting mapping). -/
def execute_step (st : PlanExecute) (o : ExecOutcome) : Option StateUpdate :=
  match st.plan with
  | [] => none
  | task :: _ => some ⟨none, some [(task, o.result)], none, some o.sharedData⟩

/-- The nodes of the graph wired by `Agent.build_graph`, plus the `END`
vertex (`terminal`). -/
inductive Node where
  | planner
  | agent
  | replan
  | terminal
deriving DecidableEq, Repr

/-- `Agent.should_end`, the conditional-edge function out of the replan node:
`END` when the `response` key is present and truthy (a non-`None`, non-empty
string), otherwise back to the `agent` node. -/
def should_end (st : PlanExecute) : Node :=
  match st.response with
  | some (some r) => if r = "" then .agent else .terminal
  | _ => .agent

/-- The oracle/sub-agent outputs one engine step may consume: the planner's
step list, the execute sub-agent's outcome and the replanner's action. -/
structure OracleOut where
  planSteps : List String
  exec : ExecOutcome
  act : Act

/-- One step of the compiled graph from a given node: the fixed edges
`START → planner → agent → replan` and the conditional edge
`replan → (agent | END)` through `should_end`.  `none` means the run stops
there: `END` has no outgoing edge, and an execute on an empty plan raises. -/
def stepNode : Node → PlanExecute → OracleOut → Option (Node × PlanExecute)
  | .planner, st, o => some (.agent, applyUpdate st (plan_step o.planSteps))
  | .agent, st, o =>
    (execute_step st o.exec).map (fun u => (.replan, applyUpdate st u))
  | .replan, st, o =>
    let st' := applyUpdate st (replan_step o.act)
    some (should_end st', st')
  | .terminal, _, _ => none

/-- A run of the graph: consumes one oracle output per node executed and
returns the list of nodes that actually executed together with the final
state. -/
def run : List OracleOut → Node → PlanExecute → List Node × PlanExecute
  | [], _, st => ([], st)
  | o :: os, n, st =>
    match stepNode n st o with
    | none => ([], st)
    | some (n', st') =>
      let r := run os n' st'
      (n :: r.1, r.2)

/-! ## The map-reduce aggregation tools

`analyze_content_tool` (src/sengy/node/analysis.py) and
`summarise_content_tool` (src/sengy/node/summarise.py).  The model-facing
parts (`load_summarize_chain` with `chain_type="map_reduce"`, and the
single structured call made by `summarise_content`) are abstracted into an
oracle whose text outputs are parameters; what we track exactly is the
number of model invocations each call makes. -/

/-- The result of one aggregation tool call: the message content it returns
and the number of model invocations it made. -/
structure ToolResult where
  message : String
  oracleCalls : Nat
deriving DecidableEq, Repr

/-- Oracle text outputs consumed by the aggregation tools. -/
structure AggOracle where
  mapReduceOut : String
  textSummaryOut : String

/-- A map-reduce chain over `n` documents invokes the model once per
document in the map phase plus once in the combining (reduce) phase. -/
def mapReduceCalls (nDocs : Nat) : Nat := nDocs + 1

/-- `analyze_content_tool`: resolves `memory_key` in `shared_data`
(`content` stays `None` when the key is absent).  A truthy `content` runs
the map-reduce chain — one document per list element, or a single document
for non-list content; a falsy `content` (absent key, empty list, empty
string) returns the designated failure message with no model call. -/
def analyze_content_tool (dimensions : List String) (memory_key : String)
    (shared_data : PyDict Value) (oracle : AggOracle) : ToolResult :=
  let content : Option Value := shared_data.lookup memory_key
  if pyTruthy content then
    let nDocs : Nat :=
      match content with
      | some (.list items) => items.length
      | _ => 1
    ⟨oracle.mapReduceOut, mapReduceCalls nDocs⟩
  else
    ⟨"Failure to analyze content", 0⟩

/-- `summarise_content_tool`: a given `memory_key` overrides `content` when
present in `shared_data`.  A non-empty list runs the map-reduce chain;
anything else falls through to the plain-text branch, which makes exactly
one model call (the structured call inside `summarise_content`).  The
plain-text branch with `content = None` raises (message validation), so
that case is `none`. -/
def summarise_content_tool (dimensions : String) (content : Option Value)
    (memory_key : Option String) (shared_data : PyDict Value)
    (oracle : AggOracle) : Option ToolResult :=
  let content : Option Value :=
    match memory_key with
    | some k =>
      match shared_data.lookup k with
      | some v => some v
      | none => content
    | none => content
  match content with
  | some (.list items) =>
    if 0 < items.length then
      some ⟨oracle.mapReduceOut, mapReduceCalls items.length⟩
    else
      some ⟨oracle.textSummaryOut, 1⟩
  | some _ => some ⟨oracle.textSummaryOut, 1⟩
  | none => none

/-! ## The router (`SengyGraph`, src/sengy/agent/sengy_graph.py) -/

/-- The two routing targets of the `Literal["github", "jira"]` field. -/
inductive AgentTarget where
  | github
  | jira
deriving DecidableEq, Repr

/-- The `RouteDecision` pydantic schema: a target from the two-element
enumeration, a confidence constrained to `[0, 1]` by the declared field
bounds (`ge=0.0`, `le=1.0`), and a rationale string. -/
structure RouteDecision where
  agent : AgentTarget
  confidence : ℚ
  reasoning : String
  confidence_nonneg : 0 ≤ confidence
  confidence_le_one : confidence ≤ 1

/-- A raw, unvalidated classification output, before pydantic validation. -/
structure RawRouteOutput where
  agent : String
  confidence : ℚ
  reasoning : String

/-- Pydantic validation of the `RouteDecision` schema: an out-of-enumeration
target or an out-of-bounds confidence is a schema failure (`none`), never a
third routing outcome. -/
def validateRouteDecision (raw : RawRouteOutput) : Option RouteDecision :=
  if raw.agent = "github" then
    if h : 0 ≤ raw.confidence ∧ raw.confidence ≤ 1 then
      some ⟨.github, raw.confidence, raw.reasoning, h.1, h.2⟩
    else none
  else if raw.agent = "jira" then
    if h : 0 ≤ raw.confidence ∧ raw.confidence ≤ 1 then
      some ⟨.jira, raw.confidence, raw.reasoning, h.1, h.2⟩
    else none
  else none

/-- The state of the routing graph (`SengyRouterState`). -/
structure SengyRouterState where
  input : String
  route_decision : RouteDecision
  final_response : String
  shared_data : PyDict Value

/-- The nodes of the routing graph built by `SengyGraph.build_graph`. -/
inductive RouterNode where
  | routeQuery
  | executeGithub
  | executeJira
deriving DecidableEq, Repr

/-- `SengyGraph.decide_route`: the conditional-edge function returns the
target stored in the routing decision. -/
def decide_route (st : SengyRouterState) : AgentTarget :=
  st.route_decision.agent

/-- The conditional-edge mapping of `SengyGraph.build_graph`:
`"github" ↦ execute_github`, `"jira" ↦ execute_jira`. -/
def routeEdge : AgentTarget → RouterNode
  | .github => .executeGithub
  | .jira => .executeJira

/-! ## The data-fetching tools' shared-data patches

`jql_query` (src/sengy/node/jira.py) and `get_github_commits`
(src/sengy/node/github.py) each return a `Command` whose `shared_data`
update binds exactly one key, namespaced by the tool and the injected
tool-call id. -/

/-- The `shared_data` patch of `jql_query`: one key
`"jira.jql.<tool-call-id>"` bound to the parsed issues. -/
def jql_query_patch (tool_call_id : String) (parsed_issues : Value) :
    PyDict Value :=
  [(("jira.jql." : String) ++ tool_call_id, parsed_issues)]

/-- The `shared_data` patch of `get_github_commits`: one key
`"github.commits.<tool-call-id>"` bound to the fetched commits. -/
def get_github_commits_patch (tool_call_id : String) (commits : Value) :
    PyDict Value :=
  [(("github.commits." : String) ++ tool_call_id, commits)]

/-! ## Helper lemmas -/

theorem String.append_right_cancel_ {p a b : String} (h : p ++ a = p ++ b) :
    a = b := by
  have hd : p.data ++ a.data = p.data ++ b.data := congrArg String.data h
  have := List.append_cancel_left hd
  cases a; cases b
  exact congrArg String.mk this

theorem jira_github_key_ne (a b : String) :
    ("jira.jql." : String) ++ a ≠ ("github.commits." : String) ++ b := by
  intro h
  have h1 : (("jira.jql." : String) ++ a).data.head? = some 'j' := rfl
  have h2 : (("github.commits." : String) ++ b).data.head? = some 'g' := rfl
  rw [h, h2] at h1
  exact absurd h1 (by decide)

theorem disjointKeys_singleton {V : Type} {k1 k2 : String} (h : k1 ≠ k2)
    (v1 v2 : V) : PyDict.disjointKeys [(k1, v1)] [(k2, v2)] = true := by
  simp [PyDict.disjointKeys, PyDict.keys]
  exact fun he => h he.symm

theorem run_terminal (os : List OracleOut) (st : PlanExecute) :
    run os Node.terminal st = ([], st) := by
  cases os <;> rfl

theorem pastSteps_plan_step (st : PlanExecute) (steps : List String) :
    (applyUpdate st (plan_step steps)).pastSteps = st.pastSteps := rfl

theorem pastSteps_replan_step (st : PlanExecute) (a : Act) :
    (applyUpdate st (replan_step a)).pastSteps = st.pastSteps := by
  cases a <;> rfl

theorem pastSteps_execute_step {st : PlanExecute} {o : ExecOutcome}
    {u : StateUpdate} {task : String} {rest : List String}
    (hp : st.plan = task :: rest) (hu : execute_step st o = some u) :
    (applyUpdate st u).pastSteps = st.pastSteps ++ [(task, o.result)] := by
  rw [execute_step, hp] at hu
  injection hu with hu
  subst hu
  rfl

/-- Every successful graph step extends `past_steps` by exactly one entry
when the executing node is `agent` and by nothing otherwise. -/
theorem stepNode_pastSteps {n n' : Node} {st st' : PlanExecute}
    {o : OracleOut} (h : stepNode n st o = some (n', st')) :
    ∃ d, st'.pastSteps = st.pastSteps ++ d
      ∧ d.length = (if n = Node.agent then 1 else 0) := by
  cases n with
  | planner =>
    injection h with h
    injection h with h1 h2
    subst h2
    exact ⟨[], by simp [pastSteps_plan_step], rfl⟩
  | agent =>
    cases hp : st.plan with
    | nil => rw [stepNode, execute_step, hp] at h; cases h
    | cons task rest =>
      rw [stepNode, execute_step, hp] at h
      simp only [Option.map_some] at h
      injection h with h
      injection h with h1 h2
      subst h2
      refine ⟨[(task, o.exec.result)], ?_, rfl⟩
      exact pastSteps_execute_step hp (by rw [execute_step, hp])
  | replan =>
    injection h with h
    injection h with h1 h2
    subst h2
    exact ⟨[], by simp [pastSteps_replan_step], rfl⟩
  | terminal => cases h

/-! ## Claim theorems -/

/-- Claim C2: for every state mapping `S` and patches `P1`, `P2` with
disjoint key sets, the `shared_data` merge (Python dict union,
`operator.or_`) satisfies
`merge(merge(S, P1), P2) == merge(merge(S, P2), P1)`, where `==` is Python
dict equality. -/
theorem shared_data_merge_commutes (S P1 P2 : PyDict Value)
    (h : PyDict.disjointKeys P1 P2 = true) :
    PyDict.equiv (PyDict.union (PyDict.union S P1) P2)
      (PyDict.union (PyDict.union S P2) P1) := by
  intro k
  rw [PyDict.lookup_union, PyDict.lookup_union, PyDict.lookup_union,
    PyDict.lookup_union]
  rcases PyDict.lookup_none_of_disjointKeys h k with h1 | h1 <;>
    rw [h1] <;> cases PyDict.lookup S k <;>
      cases h2 : PyDict.lookup P1 k <;> cases h3 : PyDict.lookup P2 k <;>
        simp_all [Option.or]

/-- Witness for claim C2 at concrete disjoint patches. -/
theorem shared_data_merge_commutes_witness :
    PyDict.disjointKeys [("a", Value.str "1")] [("b", Value.str "2")] = true
    ∧ PyDict.equiv
        (PyDict.union (PyDict.union [("s", Value.str "0")]
          [("a", Value.str "1")]) [("b", Value.str "2")])
        (PyDict.union (PyDict.union [("s", Value.str "0")]
          [("b", Value.str "2")]) [("a", Value.str "1")]) :=
  ⟨by decide, shared_data_merge_commutes [("s", Value.str "0")]
    [("a", Value.str "1")] [("b", Value.str "2")] (by decide)⟩

/-- Claim C9: the data-fetching tools each write exactly one `shared_data`
key, namespaced by the producing tool and the tool-call id; patches of
invocations with distinct tool-call ids have disjoint key sets, and merging
the two patches overwrites neither key. -/
theorem fetch_tools_namespaced_keys (id1 id2 : String) (v1 v2 : Value) :
    (jql_query_patch id1 v1).keys = [("jira.jql." : String) ++ id1]
    ∧ (get_github_commits_patch id1 v1).keys
        = [("github.commits." : String) ++ id1]
    ∧ (id1 ≠ id2 →
        PyDict.disjointKeys (jql_query_patch id1 v1) (jql_query_patch id2 v2)
            = true
        ∧ PyDict.disjointKeys (get_github_commits_patch id1 v1)
            (get_github_commits_patch id2 v2) = true)
    ∧ PyDict.disjointKeys (jql_query_patch id1 v1)
        (get_github_commits_patch id2 v2) = true
    ∧ (id1 ≠ id2 →
        PyDict.lookup
            (PyDict.union (jql_query_patch id1 v1) (jql_query_patch id2 v2))
            (("jira.jql." : String) ++ id1) = some v1
        ∧ PyDict.lookup
            (PyDict.union (jql_query_patch id1 v1) (jql_query_patch id2 v2))
            (("jira.jql." : String) ++ id2) = some v2) := by
  have hne : ∀ a b : String, a ≠ b →
      ("jira.jql." : String) ++ a ≠ ("jira.jql." : String) ++ b :=
    fun a b hab he => hab (String.append_right_cancel_ he)
  have hgh : ∀ a b : String, a ≠ b →
      ("github.commits." : String) ++ a ≠ ("github.commits." : String) ++ b :=
    fun a b hab he => hab (String.append_right_cancel_ he)
  refine ⟨rfl, rfl, fun h12 => ⟨disjointKeys_singleton (hne _ _ h12) _ _,
    disjointKeys_singleton (hgh _ _ h12) _ _⟩,
    disjointKeys_singleton (jira_github_key_ne id1 id2) _ _, fun h12 => ?_⟩
  constructor
  · rw [PyDict.lookup_union]
    have hk2 : PyDict.lookup (jql_query_patch id2 v2)
        (("jira.jql." : String) ++ id1) = none := by
      rw [jql_query_patch, PyDict.lookup,
        if_neg (fun he => h12 (String.append_right_cancel_ he).symm)]
      rfl
    rw [hk2, jql_query_patch, PyDict.lookup, if_pos rfl]
    rfl
  · rw [PyDict.lookup_union, jql_query_patch, PyDict.lookup, if_pos rfl]
    rfl

/-- Witness for claim C9 at concrete distinct tool-call ids. -/
theorem fetch_tools_namespaced_keys_witness :
    ("1" : String) ≠ "2"
    ∧ PyDict.disjointKeys (jql_query_patch "1" (Value.str "a"))
        (jql_query_patch "2" (Value.str "b")) = true
    ∧ PyDict.disjointKeys (get_github_commits_patch "1" (Value.str "a"))
        (get_github_commits_patch "2" (Value.str "b")) = true :=
  ⟨by decide, (fetch_tools_namespaced_keys "1" "2" (Value.str "a")
    (Value.str "b")).2.2.1 (by decide)⟩

/-- Claim C1: terminality is absorbing.  Once a replan step sets the final
answer to a truthy value, `should_end` routes to `END` and no further
planner, agent or replan node executes in the run; and a graph step can
reach the terminal vertex only from the replan node; and `should_end` never
routes anywhere other than the agent node or `END`. -/
theorem replan_conclude_terminal_absorbing (st : PlanExecute) (r : String)
    (h : r ≠ "") :
    should_end (applyUpdate st (replan_step (Act.response r))) = Node.terminal
    ∧ (∀ os, (run os
        (should_end (applyUpdate st (replan_step (Act.response r))))
        (applyUpdate st (replan_step (Act.response r)))).1 = [])
    ∧ (∀ n s o p, stepNode n s o = some p → p.1 = Node.terminal →
        n = Node.replan)
    ∧ (∀ s, should_end s = Node.agent ∨ should_end s = Node.terminal) := by
  have hend : should_end (applyUpdate st (replan_step (Act.response r)))
      = Node.terminal := by
    simp [should_end, applyUpdate, replan_step, h]
  refine ⟨hend, ?_, ?_, ?_⟩
  · intro os
    rw [hend, run_terminal]
  · intro n s o p hstep hterm
    cases n with
    | planner =>
      injection hstep with hstep
      rw [← hstep] at hterm
      exact Node.noConfusion hterm
    | agent =>
      cases hex : execute_step s o.exec with
      | none => rw [stepNode, hex] at hstep; cases hstep
      | some u =>
        rw [stepNode, hex] at hstep
        injection hstep with hstep
        rw [← hstep] at hterm
        exact Node.noConfusion hterm
    | replan => rfl
    | terminal => cases hstep
  · intro s
    rw [should_end]
    rcases s.response with _ | (_ | r')
    · exact Or.inl rfl
    · exact Or.inl rfl
    · dsimp only
      split
      · exact Or.inl rfl
      · exact Or.inr rfl

/-- Witness for claim C1: a concrete replan that concludes with a non-empty
answer routes to `END` and executes no further node. -/
theorem replan_conclude_terminal_absorbing_witness :
    ("done" : String) ≠ ""
    ∧ should_end (applyUpdate ⟨"obj", ["s1"], [], none, []⟩
        (replan_step (Act.response "done"))) = Node.terminal :=
  ⟨by decide, (replan_conclude_terminal_absorbing
    ⟨"obj", ["s1"], [], none, []⟩ "done" (by decide)).1⟩

/-- Claim C10: `should_end` tests Python truthiness of `response`: with the
key absent, `None`, or the empty string the engine loops back to the agent
node, and routing to `END` happens exactly when `response` holds a
non-empty string. -/
theorem should_end_truthiness (st : PlanExecute) :
    ((st.response = none ∨ st.response = some none
        ∨ st.response = some (some "")) → should_end st = Node.agent)
    ∧ (should_end st = Node.terminal
        ↔ ∃ r, st.response = some (some r) ∧ r ≠ "") := by
  constructor
  · intro h
    rcases h with h | h | h <;> rw [should_end, h]
    rfl
  · constructor
    · intro h
      rw [should_end] at h
      rcases hr : st.response with _ | (_ | r')
      · rw [hr] at h; cases h
      · rw [hr] at h; cases h
      · rw [hr] at h
        dsimp only at h
        split at h
        · cases h
        · exact ⟨r', rfl, by assumption⟩
    · rintro ⟨r, hr, hne⟩
      rw [should_end, hr]
      show (if r = "" then Node.agent else Node.terminal) = Node.terminal
      rw [if_neg hne]

/-- Witness for claim C10: a replan that sets the empty string does not
terminate the run. -/
theorem should_end_truthiness_witness :
    should_end ⟨"obj", ["s1"], [], some (some ""), []⟩ = Node.agent :=
  (should_end_truthiness ⟨"obj", ["s1"], [], some (some ""), []⟩).1
    (Or.inr (Or.inr rfl))

/-- Claim C6: `plan_step` replaces `plan` wholesale with the oracle's step
list and, in the same update, sets `response` back to Python `None`, so the
run is never routed to `END` directly after planning. -/
theorem plan_step_replaces_plan_clears_response (st : PlanExecute)
    (steps : List String) :
    (applyUpdate st (plan_step steps)).plan = steps
    ∧ (applyUpdate st (plan_step steps)).response = some none
    ∧ should_end (applyUpdate st (plan_step steps)) = Node.agent :=
  ⟨rfl, rfl, rfl⟩

/-- Claim C4: for a non-empty plan, `execute_step` returns an update that
carries only the `past_steps` and `shared_data` keys — `plan` and `response`
are absent from it — so applying it leaves `plan` (and `response`)
unchanged. -/
theorem execute_step_frame (st : PlanExecute) (o : ExecOutcome)
    (h : st.plan ≠ []) :
    ∃ u, execute_step st o = some u
      ∧ u.plan = none ∧ u.response = none
      ∧ u.pastSteps.isSome = true ∧ u.sharedData.isSome = true
      ∧ (applyUpdate st u).plan = st.plan
      ∧ (applyUpdate st u).response = st.response := by
  obtain ⟨task, rest, hp⟩ := List.exists_cons_of_ne_nil h
  refine ⟨⟨none, some [(task, o.result)], none, some o.sharedData⟩,
    ?_, rfl, rfl, rfl, rfl, rfl, rfl⟩
  rw [execute_step, hp]

/-- Witness for claim C4 at a concrete non-empty plan. -/
theorem execute_step_frame_witness :
    (⟨"obj", ["t1"], [], none, []⟩ : PlanExecute).plan ≠ []
    ∧ ∃ u, execute_step ⟨"obj", ["t1"], [], none, []⟩ ⟨"res", []⟩ = some u
      ∧ u.plan = none ∧ u.response = none
      ∧ u.pastSteps.isSome = true ∧ u.sharedData.isSome = true
      ∧ (applyUpdate ⟨"obj", ["t1"], [], none, []⟩ u).plan
          = (⟨"obj", ["t1"], [], none, []⟩ : PlanExecute).plan
      ∧ (applyUpdate ⟨"obj", ["t1"], [], none, []⟩ u).response
          = (⟨"obj", ["t1"], [], none, []⟩ : PlanExecute).response :=
  ⟨by decide, execute_step_frame ⟨"obj", ["t1"], [], none, []⟩ ⟨"res", []⟩
    (by decide)⟩

/-- Claim C7: under the precondition that `plan` is non-empty, the plan
accesses of `execute_step` are in bounds: in the total embedding the error
branch (`none`) is unreachable. -/
theorem execute_step_in_bounds (st : PlanExecute) (o : ExecOutcome)
    (h : st.plan ≠ []) : (execute_step st o).isSome = true := by
  cases hp : st.plan with
  | nil => exact absurd hp h
  | cons task rest => rw [execute_step, hp]; rfl

/-- Witness for claim C7 at a concrete non-empty plan. -/
theorem execute_step_in_bounds_witness :
    (⟨"obj", ["a"], [], none, []⟩ : PlanExecute).plan ≠ []
    ∧ (execute_step ⟨"obj", ["a"], [], none, []⟩ ⟨"r", []⟩).isSome = true :=
  ⟨by decide, execute_step_in_bounds ⟨"obj", ["a"], [], none, []⟩ ⟨"r", []⟩
    (by decide)⟩

/-- Claim C5: history is append-only and counts completed execute-steps.
Each execute appends exactly one `(step, result)` pair to `past_steps`,
planning and replanning leave `past_steps` untouched, and over any run the
final `past_steps` extends the initial one by exactly as many entries as
agent (execute) nodes completed. -/
theorem history_append_only :
    (∀ (st : PlanExecute) (o : ExecOutcome) (u : StateUpdate)
        (task : String) (rest : List String),
      st.plan = task :: rest → execute_step st o = some u →
        (applyUpdate st u).pastSteps = st.pastSteps ++ [(task, o.result)])
    ∧ (∀ (st : PlanExecute) (steps : List String),
        (applyUpdate st (plan_step steps)).pastSteps = st.pastSteps)
    ∧ (∀ (st : PlanExecute) (a : Act),
        (applyUpdate st (replan_step a)).pastSteps = st.pastSteps)
    ∧ (∀ (os : List OracleOut) (n : Node) (st : PlanExecute),
        ∃ tail, (run os n st).2.pastSteps = st.pastSteps ++ tail
          ∧ tail.length = (run os n st).1.count Node.agent) := by
  refine ⟨fun st o u task rest hp hu => pastSteps_execute_step hp hu,
    pastSteps_plan_step, pastSteps_replan_step, ?_⟩
  intro os
  induction os with
  | nil =>
    intro n st
    exact ⟨[], by simp [run], by simp [run]⟩
  | cons o os ih =>
    intro n st
    cases hstep : stepNode n st o with
    | none =>
      refine ⟨[], ?_, ?_⟩ <;> simp [run, hstep]
    | some p =>
      obtain ⟨n', st'⟩ := p
      obtain ⟨d, hd, hdlen⟩ := stepNode_pastSteps hstep
      obtain ⟨tail, htail, hlen⟩ := ih n' st'
      refine ⟨d ++ tail, ?_, ?_⟩
      · rw [run, hstep]
        dsimp only
        rw [htail, hd, List.append_assoc]
      · rw [run, hstep]
        dsimp only
        rw [List.length_append, hdlen, hlen, List.count_cons]
        by_cases hn : n = Node.agent
        · simp [hn, Nat.add_comm]
        · simp [hn, Ne.symm]

/-- Witness for claim C5: a concrete execute-step appends exactly its one
`(task, result)` pair. -/
theorem history_append_only_witness :
    (applyUpdate ⟨"obj", ["t"], [("p", "q")], none, []⟩
        ⟨none, some [("t", "res")], none, some []⟩).pastSteps
      = [("p", "q")] ++ [("t", "res")] :=
  history_append_only.1 ⟨"obj", ["t"], [("p", "q")], none, []⟩ ⟨"res", []⟩
    ⟨none, some [("t", "res")], none, some []⟩ "t" [] rfl rfl

/-- Counterexample for claim C3: with an empty list resolved from shared
memory, `summarise_content_tool` does not return the designated result with
zero model invocations — it falls through to the plain-text branch and makes
one model invocation. -/
theorem summarise_empty_collection_invokes_oracle :
    PyDict.lookup [("k", Value.list [])] "k" = some (Value.list [])
    ∧ (summarise_content_tool "priority" none (some "k")
        [("k", Value.list [])] ⟨"mr", "txt"⟩).map ToolResult.oracleCalls
      = some 1
    ∧ (some 1 : Option Nat) ≠ some 0 := by
  refine ⟨?_, rfl, by decide⟩
  rw [PyDict.lookup, if_pos rfl]

/-- Claim C3, amended: on an empty resolved item list,
`analyze_content_tool` returns the designated "Failure to analyze content"
result with zero model invocations, while `summarise_content_tool` falls
through to its plain-text branch and makes exactly one model invocation. -/
theorem empty_collection_aggregation (dims : List String) (dstr : String)
    (key : String) (shared : PyDict Value) (oracle : AggOracle)
    (content : Option Value)
    (h : shared.lookup key = some (Value.list [])) :
    analyze_content_tool dims key shared oracle
        = ⟨"Failure to analyze content", 0⟩
    ∧ summarise_content_tool dstr content (some key) shared oracle
        = some ⟨oracle.textSummaryOut, 1⟩ := by
  constructor
  · rw [analyze_content_tool]
    simp [h, pyTruthy, Value.truthy]
  · rw [summarise_content_tool]
    simp [h]

/-- Witness for the amended claim C3 at a concrete empty collection. -/
theorem empty_collection_aggregation_witness :
    PyDict.lookup [("k", Value.list [])] "k" = some (Value.list [])
    ∧ analyze_content_tool ["priority"] "k" [("k", Value.list [])]
        ⟨"mr", "txt"⟩ = ⟨"Failure to analyze content", 0⟩ :=
  ⟨by rw [PyDict.lookup, if_pos rfl],
    (empty_collection_aggregation ["priority"] "d" "k"
      [("k", Value.list [])] ⟨"mr", "txt"⟩ none
      (by rw [PyDict.lookup, if_pos rfl])).1⟩

/-- Claim C8: a routing decision always carries exactly one target from the
two-element enumeration and a confidence within `[0, 1]`; schema validation
rejects (rather than routing) any out-of-enumeration target or out-of-bounds
confidence; and the conditional edge dispatches precisely to the engine
named by the decision's target. -/
theorem route_decision_schema :
    (∀ d : RouteDecision,
        (d.agent = AgentTarget.github ∨ d.agent = AgentTarget.jira)
        ∧ 0 ≤ d.confidence ∧ d.confidence ≤ 1)
    ∧ (∀ raw : RawRouteOutput, (validateRouteDecision raw).isSome = true
        ↔ ((raw.agent = "github" ∨ raw.agent = "jira")
            ∧ 0 ≤ raw.confidence ∧ raw.confidence ≤ 1))
    ∧ (∀ st : SengyRouterState,
        (routeEdge (decide_route st) = RouterNode.executeGithub
          ↔ st.route_decision.agent = AgentTarget.github)
        ∧ (routeEdge (decide_route st) = RouterNode.executeJira
          ↔ st.route_decision.agent = AgentTarget.jira)) := by
  refine ⟨?_, ?_, ?_⟩
  · intro d
    refine ⟨?_, d.confidence_nonneg, d.confidence_le_one⟩
    cases hd : d.agent
    · exact Or.inl rfl
    · exact Or.inr rfl
  · intro raw
    rw [validateRouteDecision]
    by_cases hg : raw.agent = "github"
    · rw [if_pos hg]
      by_cases hb : 0 ≤ raw.confidence ∧ raw.confidence ≤ 1
      · rw [dif_pos hb]
        exact ⟨fun _ => ⟨Or.inl hg, hb⟩, fun _ => rfl⟩
      · rw [dif_neg hb]
        exact ⟨fun h => absurd h (by decide), fun h => absurd h.2 hb⟩
    · rw [if_neg hg]
      by_cases hj : raw.agent = "jira"
      · rw [if_pos hj]
        by_cases hb : 0 ≤ raw.confidence ∧ raw.confidence ≤ 1
        · rw [dif_pos hb]
          exact ⟨fun _ => ⟨Or.inr hj, hb⟩, fun _ => rfl⟩
        · rw [dif_neg hb]
          exact ⟨fun h => absurd h (by decide), fun h => absurd h.2 hb⟩
      · rw [if_neg hj]
        refine ⟨fun h => absurd h (by decide), ?_⟩
        rintro ⟨hg' | hj', -⟩
        · exact absurd hg' hg
        · exact absurd hj' hj
  · intro st
    simp only [decide_route]
    cases st.route_decision.agent <;> exact ⟨by decide, by decide⟩

/-- Witness for claim C8: a concrete in-schema raw output validates. -/
theorem route_decision_schema_witness :
    (validateRouteDecision ⟨"github", 1/2, "code question"⟩).isSome = true :=
  (route_decision_schema.2.1 ⟨"github", 1/2, "code question"⟩).mpr
    ⟨Or.inl rfl, by norm_num, by norm_num⟩
